import Mathlib

/-!
Shallow embedding of `src/calculator.cpp` (MoefulYe/calculator): a lexer,
a Pratt parser producing an AST, and a tree-walking evaluator over a
mutable variable environment.

Modelling conventions, matching the C++ source:
  * C++ `int` is modelled as unbounded `Int`; signed overflow (undefined
    behavior in C++) is outside the scope of every claim considered here.
  * The null `AstNode*` pointer is the constructor `AstNode.null`; the
    source's `Expression` is the nullable pointer `AstNode`.
  * Undefined behavior (null-pointer dereference in the evaluator,
    division/remainder by zero, reading an inactive union member) is
    modelled by the `none` outcome; a `none` never stands for a value the
    C++ program would compute normally.
  * The parser's recursion carries an explicit fuel bound; the source
    recursion consumes tokens, so any fuel larger than the call depth
    reproduces it exactly. Concrete runs use `FUEL = 1000`.
  * `std::unordered_map<string,int>` is an association list updated in
    place by `ctxSet` (`operator[]` assignment / default-insert).
-/

/-- Tokens of the lexer (`struct Token` in the source): an operator
character among `+ - * / % ( )`, a number, end of input, an identifier,
or the `=` marker. -/
inductive Token where
  | oper : Char → Token
  | num : Int → Token
  | eof : Token
  | ident : String → Token
  | assign : Token
deriving DecidableEq, Repr

/-- `Token::not_eof`. -/
def Token.not_eof : Token → Bool
  | Token.eof => false
  | _ => true

/-- `Lexer::is_digit`. -/
def is_digit (c : Char) : Bool := '0' ≤ c && c ≤ '9'

/-- `Lexer::is_letter`. -/
def is_letter (c : Char) : Bool :=
  ('a' ≤ c && c ≤ 'z') || ('A' ≤ c && c ≤ 'Z') || c == '_'

/-- The `\0` sentinel the C++ lexer uses for "past the end". -/
def nulChar : Char := Char.ofNat 0

/-- Lexer state: `ch` is the current character (`\0` once past the end),
`rest` the characters after it. The source keeps indices `cur`/`next`
into the input; `(ch, rest)` is that same state with the consumed prefix
dropped. -/
structure Lexer where
  ch : Char
  rest : List Char
deriving DecidableEq, Repr

/-- The constructor `Lexer(string_view)`: position at the first
character (the initial `read_char`). -/
def Lexer.init : List Char → Lexer
  | [] => ⟨nulChar, []⟩
  | c :: cs => ⟨c, cs⟩

/-- `Lexer::read_char`: advance one character, `\0` past the end. -/
def Lexer.read_char : Lexer → Lexer
  | ⟨_, []⟩ => ⟨nulChar, []⟩
  | ⟨_, c :: cs⟩ => ⟨c, cs⟩

/-- The loop of `Lexer::skipspace` once `ch` is known to be a space:
keep advancing while the current character is a space. -/
def skipspaceList : List Char → Lexer
  | [] => ⟨nulChar, []⟩
  | c :: cs => if c = ' ' then skipspaceList cs else ⟨c, cs⟩

/-- `Lexer::skipspace`: `while (ch == ' ') read_char();`. -/
def Lexer.skipspace (l : Lexer) : Lexer :=
  if l.ch = ' ' then skipspaceList l.rest else l

/-- The loop of `Lexer::read_number`:
`while (is_digit(ch)) { num = num * 10 + (ch - '0'); read_char(); }`,
returning the accumulated value and the lexer state after the loop. -/
def readNumGo : Int → Char → List Char → Int × Lexer
  | numAcc, c, rest =>
    if is_digit c then
      let numAcc := numAcc * 10 + ((c.toNat : Int) - 48)
      match rest with
      | [] => (numAcc, ⟨nulChar, []⟩)
      | c :: cs => readNumGo numAcc c cs
    else (numAcc, ⟨c, rest⟩)

/-- `Lexer::read_number` starting from accumulator 0. -/
def Lexer.read_number (l : Lexer) : Int × Lexer :=
  readNumGo 0 l.ch l.rest

/-- The loop of `Lexer::read_identifier`: collect the maximal run of
letters/underscores starting at the current character. -/
def readIdentGo : List Char → Char → List Char → List Char × Lexer
  | acc, c, rest =>
    if is_letter c then
      let acc := acc ++ [c]
      match rest with
      | [] => (acc, ⟨nulChar, []⟩)
      | c :: cs => readIdentGo acc c cs
    else (acc, ⟨c, rest⟩)

/-- `Lexer::read_identifier`. -/
def Lexer.read_identifier (l : Lexer) : String × Lexer :=
  let r := readIdentGo [] l.ch l.rest
  (String.mk r.1, r.2)

/-- Is the character one of the seven single-character operator tokens? -/
def isOperChar (c : Char) : Bool :=
  c == '+' || c == '-' || c == '*' || c == '/' || c == '%' || c == '(' || c == ')'

/-- `Lexer::next_token`: skip spaces, then dispatch on the current
character. Operators and `=` consume one character; end of input and any
unrecognized character produce `Token.eof` WITHOUT consuming anything;
digit and letter runs are read maximally. -/
def Lexer.next_token (l : Lexer) : Token × Lexer :=
  let s := l.skipspace
  if isOperChar s.ch then (Token.oper s.ch, s.read_char)
  else if s.ch = '=' then (Token.assign, s.read_char)
  else if s.ch = nulChar then (Token.eof, s)
  else if is_digit s.ch then
    let r := s.read_number
    (Token.num r.1, r.2)
  else if is_letter s.ch then
    let r := s.read_identifier
    (Token.ident r.1, r.2)
  else (Token.eof, s)

/-- `AstNode::BinaryOp`. -/
inductive BinaryOp where
  | add | sub | prod | div | mod
deriving DecidableEq, Repr

/-- `AstNode` together with the null pointer: the source's `Expression`
is `AstNode*`, so every position of type `AstNode` here is a possibly
null pointer; `AstNode.null` is `nullptr`. -/
inductive AstNode where
  | null : AstNode
  | literal : Int → AstNode
  | binary : BinaryOp → AstNode → AstNode → AstNode
  | negative : AstNode → AstNode
  | identifier : String → AstNode
deriving DecidableEq, Repr

/-- `struct Statement`: a bare expression or an assignment. The carried
`AstNode` may be `AstNode.null` (the source stores the raw pointer the
parser produced, even when the parse failed). -/
inductive Statement where
  | expression : AstNode → Statement
  | assignment : String → AstNode → Statement
deriving DecidableEq, Repr

/-- Parser state: the lexer plus the two-token lookahead buffer
(`cur`, `next`). -/
structure Parser where
  lexer : Lexer
  cur : Token
  next : Token
deriving DecidableEq, Repr

/-- The constructor `Parser(string_view)`: pre-fetch the first two
tokens. -/
def Parser.init (input : List Char) : Parser :=
  let r1 := (Lexer.init input).next_token
  let r2 := r1.2.next_token
  ⟨r2.2, r1.1, r2.1⟩

/-- `Parser::read_token`: shift the lookahead buffer by one token. -/
def Parser.read_token (p : Parser) : Parser :=
  let r := p.lexer.next_token
  ⟨r.2, p.next, r.1⟩

/-- `Parser::precedence`: `+ -` ↦ 1 (ADD_SUB), `* / %` ↦ 2
(PROD_DIV_MOD), every other token ↦ 0 (LOWEST). The PREFIX level is 3. -/
def precedence : Token → Nat
  | Token.oper c =>
    if c = '+' ∨ c = '-' then 1
    else if c = '*' ∨ c = '/' ∨ c = '%' then 2
    else 0
  | _ => 0

/-- The operator mapping at the head of `Parser::parse_infix_expression`
(`default:` falls through to a null result). -/
def binopOf : Char → Option BinaryOp
  | '+' => some BinaryOp.add
  | '-' => some BinaryOp.sub
  | '*' => some BinaryOp.prod
  | '/' => some BinaryOp.div
  | '%' => some BinaryOp.mod
  | _ => none

/-- Is the character one of the five infix operators of the `switch` in
the loop of `Parser::parse_expression`? -/
def isInfixChar (c : Char) : Bool :=
  c == '+' || c == '-' || c == '*' || c == '/' || c == '%'

mutual

/-- `Parser::parse_prefix_expression`: remember `cur.op`, advance, then
unary `+` returns its operand unchanged, unary `-` wraps it in
`NegativeExpression`; any other operator yields the null pointer. -/
def parse_prefix_expression : Nat → Parser → AstNode × Parser
  | 0, p => (AstNode.null, p)
  | Nat.succ fuel, p =>
    match p.cur with
    | Token.oper op =>
      let p := p.read_token
      if op = '+' then parse_expression fuel 3 p
      else if op = '-' then
        let r := parse_expression fuel 3 p
        (AstNode.negative r.1, r.2)
      else (AstNode.null, p)
    | _ => (AstNode.null, p.read_token)

/-- `Parser::parse_grouped_expression`: skip `(`, parse at LOWEST, then
require the lookahead token to be `)` (returning null without consuming
otherwise) and consume it. -/
def parse_grouped_expression : Nat → Parser → AstNode × Parser
  | 0, p => (AstNode.null, p)
  | Nat.succ fuel, p =>
    let p := p.read_token
    let r := parse_expression fuel 0 p
    if r.2.next = Token.oper ')' then (r.1, r.2.read_token)
    else (AstNode.null, r.2)

/-- `Parser::parse_infix_expression`: map `cur.op` to a `BinaryOp`
(null on `(`/`)`), record its precedence, advance, parse the right
operand at that SAME precedence (left-associativity), and build the
`BinaryExpression` node — whose right child may be null. -/
def parse_infix_expression : Nat → AstNode → Parser → AstNode × Parser
  | 0, _, p => (AstNode.null, p)
  | Nat.succ fuel, left, p =>
    match p.cur with
    | Token.oper c =>
      match binopOf c with
      | some op =>
        let prec := precedence p.cur
        let p := p.read_token
        let r := parse_expression fuel prec p
        (AstNode.binary op left r.1, r.2)
      | none => (AstNode.null, p)
    | _ => (AstNode.null, p)

/-- `Parser::parse_expression`: parse a prefix term dispatching on the
current token (null when the token cannot start a term), then run the
infix loop. -/
def parse_expression : Nat → Nat → Parser → AstNode × Parser
  | 0, _, p => (AstNode.null, p)
  | Nat.succ fuel, prec, p =>
    match p.cur with
    | Token.oper c =>
      if c = '+' ∨ c = '-' then
        let r := parse_prefix_expression fuel p
        parse_infix_loop fuel prec r.1 r.2
      else if c = '(' then
        let r := parse_grouped_expression fuel p
        parse_infix_loop fuel prec r.1 r.2
      else (AstNode.null, p)
    | Token.ident s => parse_infix_loop fuel prec (AstNode.identifier s) p
    | Token.num n => parse_infix_loop fuel prec (AstNode.literal n) p
    | _ => (AstNode.null, p)

/-- The `while` loop at the end of `Parser::parse_expression`: while the
lookahead token is not EOF and binds strictly tighter than `prec`,
advance onto it and extend `left` by an infix expression. -/
def parse_infix_loop : Nat → Nat → AstNode → Parser → AstNode × Parser
  | 0, _, _, p => (AstNode.null, p)
  | Nat.succ fuel, prec, left, p =>
    if p.next.not_eof && decide (prec < precedence p.next) then
      let p := p.read_token
      match p.cur with
      | Token.oper c =>
        if isInfixChar c then
          let r := parse_infix_expression fuel left p
          parse_infix_loop fuel prec r.1 r.2
        else (AstNode.null, p)
      | _ => (AstNode.null, p)
    else (left, p)

end

/-- The string payload of a token, defined only when the token is an
identifier: in the source `Token` is an untagged union, so reading
`.ident` of any other token is undefined behavior (`none`). -/
def Token.identOf : Token → Option String
  | Token.ident s => some s
  | _ => none

/-- `Parser::parse_statment` (source spelling): if the SECOND lookahead
token is `=`, take the assignment branch, reading the name from the
first token's `ident` payload with no check that it is an identifier
(undefined behavior, `none`, otherwise); else parse an expression
statement. No check for leftover tokens is performed. -/
def parse_statment (fuel : Nat) (p : Parser) : Option Statement × Parser :=
  match p.next with
  | Token.assign =>
    match p.cur.identOf with
    | some name =>
      let p := p.read_token.read_token
      let r := parse_expression fuel 0 p
      (some (Statement.assignment name r.1), r.2)
    | none => (none, p)
  | _ =>
    let r := parse_expression fuel 0 p
    (some (Statement.expression r.1), r.2)

/-- Fuel bound for concrete runs; any value larger than the recursion
depth of the source parser on the given input behaves identically. -/
def FUEL : Nat := 1000

/-- Parse one input line as the REPL does. -/
def parse_line (input : String) : Option Statement :=
  (parse_statment FUEL (Parser.init input.data)).1

/-- The variable environment `Context = std::unordered_map<string,int>`,
as an association list with unique keys. -/
def Context := List (String × Int)
deriving DecidableEq, Repr

/-- Map lookup (`find`): the value bound to `name`, if any. -/
def ctxGet : Context → String → Option Int
  | [], _ => none
  | (k, v) :: rest, name => if k = name then some v else ctxGet rest name

/-- `operator[]` assignment / `Evaluator::set_var`: overwrite the
binding of `name` if present, insert it otherwise. -/
def ctxSet : Context → String → Int → Context
  | [], name, value => [(name, value)]
  | (k, v) :: rest, name, value =>
    if k = name then (k, value) :: rest
    else (k, v) :: ctxSet rest name value

/-- Truncating division of C++ `int` (`/` rounds toward zero). -/
def cdiv (a b : Int) : Int := Int.tdiv a b

/-- Truncating remainder of C++ `int` (`%`). -/
def cmod (a b : Int) : Int := Int.tmod a b

/-- `Evaluator::eval_expression` (with `eval_binary`, `eval_negative`,
`eval_identifier`, `eval_literal` inlined at their cases; see the
wrapper definitions below). Threads the environment left-to-right and
returns `none` exactly when the C++ run is undefined: dereferencing a
null child, or `/`/`%` with zero right operand. Reading an absent
identifier default-inserts 0 (`this->ctx[node->ident]`). -/
def eval_expression : AstNode → Context → Option Int × Context
  | AstNode.null, ctx => (none, ctx)
  | AstNode.literal n, ctx => (some n, ctx)
  | AstNode.identifier name, ctx =>
    match ctxGet ctx name with
    | some v => (some v, ctx)
    | none => (some 0, ctxSet ctx name 0)
  | AstNode.negative child, ctx =>
    match eval_expression child ctx with
    | (some v, ctx) => (some (-v), ctx)
    | (none, ctx) => (none, ctx)
  | AstNode.binary op left right, ctx =>
    match eval_expression left ctx with
    | (none, ctx) => (none, ctx)
    | (some lv, ctx) =>
      match eval_expression right ctx with
      | (none, ctx) => (none, ctx)
      | (some rv, ctx) =>
        match op with
        | BinaryOp.add => (some (lv + rv), ctx)
        | BinaryOp.sub => (some (lv - rv), ctx)
        | BinaryOp.prod => (some (lv * rv), ctx)
        | BinaryOp.div =>
          if rv = 0 then (none, ctx) else (some (cdiv lv rv), ctx)
        | BinaryOp.mod =>
          if rv = 0 then (none, ctx) else (some (cmod lv rv), ctx)

/-- `Evaluator::eval_literal`. -/
def eval_literal (n : Int) (ctx : Context) : Option Int × Context := (some n, ctx)

/-- `Evaluator::eval_identifier`: `return this->ctx[node->ident];`
(default-inserting 0 when absent). -/
def eval_identifier (name : String) (ctx : Context) : Option Int × Context :=
  match ctxGet ctx name with
  | some v => (some v, ctx)
  | none => (some 0, ctxSet ctx name 0)

/-- `Evaluator::eval_negative`. -/
def eval_negative (child : AstNode) (ctx : Context) : Option Int × Context :=
  match eval_expression child ctx with
  | (some v, ctx) => (some (-v), ctx)
  | (none, ctx) => (none, ctx)

/-- `Evaluator::eval_binary`. -/
def eval_binary (op : BinaryOp) (left right : AstNode) (ctx : Context) :
    Option Int × Context :=
  eval_expression (AstNode.binary op left right) ctx

/-- `Evaluator::eval_statment` (source spelling): an assignment
evaluates its right-hand side, then stores the value under the name via
`set_var` and returns it; an expression statement just evaluates. When
the right-hand evaluation is undefined (`none`) control never reaches
`set_var`. -/
def eval_statment (stmt : Statement) (ctx : Context) : Option Int × Context :=
  match stmt with
  | Statement.assignment name rhs =>
    match eval_expression rhs ctx with
    | (some value, ctx) => (some value, ctxSet ctx name value)
    | (none, ctx) => (none, ctx)
  | Statement.expression expr => eval_expression expr ctx

/-- One REPL iteration on a line: parse, then hand the statement to the
evaluator (the source does so unconditionally, even when the parse
produced null nodes). `none` marks an undefined (crashing) run. -/
def run_line (input : String) (ctx : Context) : Option Int × Context :=
  match (parse_statment FUEL (Parser.init input.data)).1 with
  | some stmt => eval_statment stmt ctx
  | none => (none, ctx)

/-- Does the tree contain a null pointer (so that evaluating it
dereferences `nullptr`)? -/
def AstNode.hasNull : AstNode → Bool
  | AstNode.null => true
  | AstNode.binary _ l r => l.hasNull || r.hasNull
  | AstNode.negative c => c.hasNull
  | _ => false

/-- Relation between an environment and a later one in which every
existing binding is preserved verbatim and any new binding carries the
implicit value 0 (identifier materialization). -/
def EnvGrows0 (ctx ctx' : Context) : Prop :=
  (∀ k v, ctxGet ctx k = some v → ctxGet ctx' k = some v) ∧
  (∀ k, ctxGet ctx k = none → ctxGet ctx' k = none ∨ ctxGet ctx' k = some 0)

theorem eval_expression_identifier_def (name : String) (ctx : Context) :
    eval_expression (AstNode.identifier name) ctx = eval_identifier name ctx := rfl

theorem eval_expression_negative_def (child : AstNode) (ctx : Context) :
    eval_expression (AstNode.negative child) ctx = eval_negative child ctx := rfl

theorem ctxGet_ctxSet_self (ctx : Context) (name : String) (value : Int) :
    ctxGet (ctxSet ctx name value) name = some value := by
  induction ctx with
  | nil => simp [ctxGet, ctxSet]
  | cons hd tl ih =>
    obtain ⟨k, v⟩ := hd
    by_cases hk : k = name <;> simp [ctxGet, ctxSet, hk, ih]

theorem ctxGet_ctxSet_ne (ctx : Context) (name k' : String) (value : Int)
    (h : name ≠ k') : ctxGet (ctxSet ctx name value) k' = ctxGet ctx k' := by
  induction ctx with
  | nil => simp [ctxGet, ctxSet, h]
  | cons hd tl ih =>
    obtain ⟨k, v⟩ := hd
    by_cases hk : k = name
    · subst hk
      simp [ctxGet, ctxSet, h]
    · simp [ctxGet, ctxSet, hk, ih]

theorem envGrows0_refl (ctx : Context) : EnvGrows0 ctx ctx := by
  constructor
  · intro k v h
    exact h
  · intro k h
    exact Or.inl h

theorem envGrows0_trans {a b c : Context} (h1 : EnvGrows0 a b)
    (h2 : EnvGrows0 b c) : EnvGrows0 a c := by
  obtain ⟨p1, q1⟩ := h1
  obtain ⟨p2, q2⟩ := h2
  constructor
  · intro k v h
    exact p2 k v (p1 k v h)
  · intro k h
    rcases q1 k h with hb | hb
    · exact q2 k hb
    · exact Or.inr (p2 k 0 hb)

theorem envGrows0_materialize (ctx : Context) (name : String)
    (h : ctxGet ctx name = none) : EnvGrows0 ctx (ctxSet ctx name 0) := by
  constructor
  · intro k v hk
    have hne : name ≠ k := by
      intro he
      rw [he] at h
      rw [h] at hk
      exact Option.noConfusion hk
    rw [ctxGet_ctxSet_ne ctx name k 0 hne]
    exact hk
  · intro k hk
    by_cases he : name = k
    · subst he
      exact Or.inr (ctxGet_ctxSet_self ctx name 0)
    · rw [ctxGet_ctxSet_ne ctx name k 0 he]
      exact Or.inl hk

theorem eval_expression_envGrows0 (e : AstNode) (ctx : Context) :
    EnvGrows0 ctx (eval_expression e ctx).2 := by
  induction e generalizing ctx with
  | null => exact envGrows0_refl ctx
  | literal n => exact envGrows0_refl ctx
  | identifier name =>
    cases h : ctxGet ctx name with
    | some v => simp [eval_expression, h, envGrows0_refl]
    | none =>
      simp only [eval_expression, h]
      exact envGrows0_materialize ctx name h
  | negative child ih =>
    rcases h : eval_expression child ctx with ⟨r, ctx1⟩
    have := ih ctx
    rw [h] at this
    cases r <;> simp [eval_expression, h] <;> exact this
  | binary op l r ihl ihr =>
    rcases hl : eval_expression l ctx with ⟨rl, ctx1⟩
    have h1 := ihl ctx
    rw [hl] at h1
    cases rl with
    | none => simp [eval_expression, hl]; exact h1
    | some lv =>
      rcases hr : eval_expression r ctx1 with ⟨rr, ctx2⟩
      have h2 := ihr ctx1
      rw [hr] at h2
      have h12 := envGrows0_trans h1 h2
      cases rr with
      | none => simp [eval_expression, hl, hr]; exact h12
      | some rv =>
        cases op <;> simp [eval_expression, hl, hr]
        case div => split <;> exact h12
        case mod => split <;> exact h12
        all_goals exact h12

theorem skipspaceList_ch_ne_space (cs : List Char) :
    (skipspaceList cs).ch ≠ ' ' := by
  induction cs with
  | nil => simp [skipspaceList, nulChar]
  | cons c cs ih =>
    by_cases hc : c = ' ' <;> simp [skipspaceList, hc, ih]

theorem skipspace_ch_ne_space (l : Lexer) : (l.skipspace).ch ≠ ' ' := by
  by_cases h : l.ch = ' '
  · simp [Lexer.skipspace, h, skipspaceList_ch_ne_space]
  · simp [Lexer.skipspace, h]

theorem skipspace_of_ch_ne_space (l : Lexer) (h : l.ch ≠ ' ') :
    l.skipspace = l := by
  simp [Lexer.skipspace, h]

/-- C1: the spec demands that `/` and `%` with a zero right operand fail
with a recoverable `DivisionByZero` error and never crash; the code
instead evaluates `5/0` and `5%0` to a C++ integer division by zero,
which is undefined behavior (modelled `none`) — the program has no
`DivisionByZero` error representation at all, so the run crashes rather
than reporting an error. -/
theorem division_by_zero_is_undefined_behavior :
    run_line "5/0" [] = (none, []) ∧
    run_line "5%0" [] = (none, []) ∧
    parse_line "5/0" = some (Statement.expression
      (AstNode.binary BinaryOp.div (AstNode.literal 5) (AstNode.literal 0))) ∧
    parse_line "5%0" = some (Statement.expression
      (AstNode.binary BinaryOp.mod (AstNode.literal 5) (AstNode.literal 0))) ∧
    eval_binary BinaryOp.div (AstNode.literal 5) (AstNode.literal 0) [] = (none, []) ∧
    eval_binary BinaryOp.mod (AstNode.literal 5) (AstNode.literal 0) [] = (none, []) := by
  decide

/-- C2: the precedence table maps `* / %` to 2 and `+ -` to 1, every
binary operator chain parses left-associated, and the three spec
examples parse and evaluate to 14, 20 and 5. -/
theorem precedence_and_left_associativity :
    precedence (Token.oper '*') = 2 ∧
    precedence (Token.oper '/') = 2 ∧
    precedence (Token.oper '%') = 2 ∧
    precedence (Token.oper '+') = 1 ∧
    precedence (Token.oper '-') = 1 ∧
    parse_line "2+3*4" = some (Statement.expression
      (AstNode.binary BinaryOp.add (AstNode.literal 2)
        (AstNode.binary BinaryOp.prod (AstNode.literal 3) (AstNode.literal 4)))) ∧
    parse_line "8+3+2" = some (Statement.expression
      (AstNode.binary BinaryOp.add
        (AstNode.binary BinaryOp.add (AstNode.literal 8) (AstNode.literal 3))
        (AstNode.literal 2))) ∧
    parse_line "8-3-2" = some (Statement.expression
      (AstNode.binary BinaryOp.sub
        (AstNode.binary BinaryOp.sub (AstNode.literal 8) (AstNode.literal 3))
        (AstNode.literal 2))) ∧
    parse_line "8*3*2" = some (Statement.expression
      (AstNode.binary BinaryOp.prod
        (AstNode.binary BinaryOp.prod (AstNode.literal 8) (AstNode.literal 3))
        (AstNode.literal 2))) ∧
    parse_line "8/3/2" = some (Statement.expression
      (AstNode.binary BinaryOp.div
        (AstNode.binary BinaryOp.div (AstNode.literal 8) (AstNode.literal 3))
        (AstNode.literal 2))) ∧
    parse_line "8%3%2" = some (Statement.expression
      (AstNode.binary BinaryOp.mod
        (AstNode.binary BinaryOp.mod (AstNode.literal 8) (AstNode.literal 3))
        (AstNode.literal 2))) ∧
    parse_line "10-3-2" = some (Statement.expression
      (AstNode.binary BinaryOp.sub
        (AstNode.binary BinaryOp.sub (AstNode.literal 10) (AstNode.literal 3))
        (AstNode.literal 2))) ∧
    run_line "2+3*4" [] = (some 14, []) ∧
    run_line "(2+3)*4" [] = (some 20, []) ∧
    run_line "10-3-2" [] = (some 5, []) := by
  decide

/-- C5: on the malformed inputs `*5`, `1+` and `(1+2` the parse does
fail — but the failure is signalled only by a null pointer inside the
returned `Statement`, and that statement IS handed to the evaluator,
which dereferences the null pointer: undefined behavior (`none`),
contradicting the requirement that an invalid tree never reach
evaluation. -/
theorem parse_failure_null_reaches_evaluator :
    parse_line "*5" = some (Statement.expression AstNode.null) ∧
    parse_line "1+" = some (Statement.expression
      (AstNode.binary BinaryOp.add (AstNode.literal 1) AstNode.null)) ∧
    parse_line "(1+2" = some (Statement.expression AstNode.null) ∧
    AstNode.hasNull AstNode.null = true ∧
    AstNode.hasNull (AstNode.binary BinaryOp.add (AstNode.literal 1)
      AstNode.null) = true ∧
    eval_statment (Statement.expression AstNode.null) [] = (none, []) ∧
    run_line "*5" [] = (none, []) ∧
    run_line "1+" [] = (none, []) ∧
    run_line "(1+2" [] = (none, []) := by
  decide

/-- C6 counterexample: the statement `y/0` fails to evaluate, yet the
environment after the failure differs from the one before it — the
identifier `y` was materialized with value 0 before the division by
zero was reached. -/
theorem failed_statement_changes_environment :
    run_line "y/0" [] = (none, [("y", 0)]) ∧ ([("y", 0)] : Context) ≠ [] := by
  constructor
  · decide
  · intro h
    exact List.noConfusion h

/-- C6 amended: a statement whose evaluation fails (undefined run,
`none`) never alters or removes an existing binding and never stores an
assignment target; the only environment change it can leave behind is
the implicit materialization of read identifiers with value 0. -/
theorem failed_statement_preserves_bindings (stmt : Statement) (ctx : Context)
    (h : (eval_statment stmt ctx).1 = none) :
    EnvGrows0 ctx (eval_statment stmt ctx).2 := by
  cases stmt with
  | expression e =>
    have := eval_expression_envGrows0 e ctx
    simpa [eval_statment] using this
  | assignment name rhs =>
    have hg := eval_expression_envGrows0 rhs ctx
    rcases he : eval_expression rhs ctx with ⟨r, ctx1⟩
    rw [he] at hg
    cases r with
    | some v =>
      rw [eval_statment] at h
      rw [he] at h
      simp at h
    | none =>
      rw [eval_statment]
      rw [he]
      exact hg

/-- C6 amended, witness: evaluating the failing statement `5/0` from
the environment `a ↦ 1` preserves that binding. -/
theorem failed_statement_preserves_bindings_witness :
    (eval_statment (Statement.expression (AstNode.binary BinaryOp.div
      (AstNode.literal 5) (AstNode.literal 0))) [("a", 1)]).1 = none ∧
    EnvGrows0 [("a", 1)] (eval_statment (Statement.expression
      (AstNode.binary BinaryOp.div (AstNode.literal 5) (AstNode.literal 0)))
      [("a", 1)]).2 :=
  ⟨by decide, failed_statement_preserves_bindings _ _ (by decide)⟩

/-- C7 counterexample: the input `1 2` leaves the token `2` unconsumed
after a complete statement, yet `parse_statment` does not fail in any
way: it returns the fully valid statement `1` (no null node), which
evaluates to 1. -/
theorem trailing_tokens_not_rejected :
    parse_line "1 2" = some (Statement.expression (AstNode.literal 1)) ∧
    AstNode.hasNull (AstNode.literal 1) = false ∧
    run_line "1 2" [] = (some 1, []) := by
  decide

/-- C3: evaluating an `Identifier` node for a name absent from the
environment returns 0 and inserts that name with value 0
(`this->ctx[node->ident]` default-inserts); concretely, `y+1` under the
empty environment yields 1 and leaves `y ↦ 0` behind. -/
theorem absent_identifier_materializes_zero (name : String) (ctx : Context)
    (h : ctxGet ctx name = none) :
    eval_expression (AstNode.identifier name) ctx = (some 0, ctxSet ctx name 0) ∧
    ctxGet (ctxSet ctx name 0) name = some 0 ∧
    run_line "y+1" [] = (some 1, [("y", 0)]) := by
  refine ⟨?_, ctxGet_ctxSet_self ctx name 0, by decide⟩
  simp [eval_expression, h]

/-- C3 witness: the name `y` is absent from the empty environment, and
reading it returns 0 while inserting `y ↦ 0`. -/
theorem absent_identifier_materializes_zero_witness :
    ctxGet [] "y" = none ∧
    (eval_expression (AstNode.identifier "y") [] = (some 0, ctxSet [] "y" 0) ∧
     ctxGet (ctxSet [] "y" 0) "y" = some 0 ∧
     run_line "y+1" [] = (some 1, [("y", 0)])) :=
  ⟨by decide, absent_identifier_materializes_zero "y" [] (by decide)⟩

/-- C4: an assignment statement evaluates its right-hand side first,
stores the resulting value under the name (the stored binding is then
readable), and returns that value; concretely `x = 5` returns 5 leaving
`x ↦ 5`, and a subsequent `x+1` returns 6. -/
theorem assignment_stores_and_returns (name : String) (rhs : AstNode)
    (ctx ctx' : Context) (v : Int)
    (h : eval_expression rhs ctx = (some v, ctx')) :
    eval_statment (Statement.assignment name rhs) ctx =
      (some v, ctxSet ctx' name v) ∧
    ctxGet (ctxSet ctx' name v) name = some v ∧
    run_line "x = 5" [] = (some 5, [("x", 5)]) ∧
    run_line "x+1" [("x", 5)] = (some 6, [("x", 5)]) := by
  refine ⟨?_, ctxGet_ctxSet_self ctx' name v, by decide, by decide⟩
  simp [eval_statment, h]

/-- C4 witness: the assignment `x = 5` from the empty environment. -/
theorem assignment_stores_and_returns_witness :
    eval_expression (AstNode.literal 5) [] = (some 5, []) ∧
    (eval_statment (Statement.assignment "x" (AstNode.literal 5)) [] =
      (some 5, ctxSet [] "x" 5) ∧
     ctxGet (ctxSet [] "x" 5) "x" = some 5 ∧
     run_line "x = 5" [] = (some 5, [("x", 5)]) ∧
     run_line "x+1" [("x", 5)] = (some 6, [("x", 5)])) :=
  ⟨by decide, assignment_stores_and_returns "x" (AstNode.literal 5) [] [] 5 (by decide)⟩

/-- C8: once `next_token` returns `EndOfInput` it returns `EndOfInput`
with an unchanged lexer state on every subsequent call, and whenever the
character under the cursor (after space skipping) is not an operator,
`=`, a digit or a letter — in particular any unrecognized character —
the produced token is `EndOfInput`, never another token or an error. -/
theorem next_token_eof_idempotent :
    (∀ l t l', Lexer.next_token l = (t, l') → t = Token.eof →
      Lexer.next_token l' = (Token.eof, l')) ∧
    (∀ l, isOperChar (l.skipspace).ch = false → (l.skipspace).ch ≠ '=' →
      is_digit (l.skipspace).ch = false → is_letter (l.skipspace).ch = false →
      (Lexer.next_token l).1 = Token.eof) := by
  constructor
  · intro l t l' h heof
    subst heof
    have hs := skipspace_ch_ne_space l
    have hfix := skipspace_of_ch_ne_space _ hs
    simp only [Lexer.next_token] at h
    split_ifs at h with c1 c2 c3 c4 c5
    · simp at h
    · simp at h
    · rw [Prod.mk.injEq] at h
      obtain ⟨-, rfl⟩ := h
      simp only [Lexer.next_token, hfix]
      rw [if_neg c1, if_neg c2, if_pos c3]
    · simp at h
    · simp at h
    · rw [Prod.mk.injEq] at h
      obtain ⟨-, rfl⟩ := h
      simp only [Lexer.next_token, hfix]
      rw [if_neg c1, if_neg c2, if_neg c3, if_neg c4, if_neg c5]
  · intro l h1 h2 h3 h4
    simp only [Lexer.next_token]
    rw [if_neg (by simp [h1]), if_neg h2]
    by_cases c : (l.skipspace).ch = nulChar
    · rw [if_pos c]
    · rw [if_neg c, if_neg (by simp [h3]), if_neg (by simp [h4])]

/-- C8 witness: instantiated at the lexer state sitting on the
unrecognized character `?`. -/
theorem next_token_eof_idempotent_witness :
    Lexer.next_token ⟨'?', []⟩ = (Token.eof, (⟨'?', []⟩ : Lexer)) ∧
    (Lexer.next_token ⟨'?', []⟩).1 = Token.eof :=
  ⟨next_token_eof_idempotent.1 ⟨'?', []⟩ Token.eof ⟨'?', []⟩ (by decide) rfl,
   next_token_eof_idempotent.2 ⟨'?', []⟩ (by decide) (by decide) (by decide) (by decide)⟩

/-- C9: prefix `+` parses and returns its operand unchanged, prefix `-`
wraps the operand (parsed at PREFIX precedence) in a
`NegativeExpression`, and a `NegativeExpression` evaluates to the
arithmetic negation of its child; concretely `-5+2` evaluates to -3,
`+5` to 5, and the double prefix `--5` is accepted and evaluates
to 5. -/
theorem unary_plus_minus_semantics :
    (∀ fuel p, p.cur = Token.oper '+' →
      parse_prefix_expression (Nat.succ fuel) p =
        parse_expression fuel 3 p.read_token) ∧
    (∀ fuel p, p.cur = Token.oper '-' →
      parse_prefix_expression (Nat.succ fuel) p =
        (AstNode.negative (parse_expression fuel 3 p.read_token).1,
          (parse_expression fuel 3 p.read_token).2)) ∧
    (∀ child ctx, eval_expression (AstNode.negative child) ctx =
      ((eval_expression child ctx).1.map (fun v => -v),
        (eval_expression child ctx).2)) ∧
    run_line "-5+2" [] = (some (-3), []) ∧
    run_line "+5" [] = (some 5, []) ∧
    parse_line "+5" = some (Statement.expression (AstNode.literal 5)) ∧
    parse_line "--5" = some (Statement.expression
      (AstNode.negative (AstNode.negative (AstNode.literal 5)))) ∧
    run_line "--5" [] = (some 5, []) := by
  refine ⟨?_, ?_, ?_, by decide, by decide, by decide, by decide, by decide⟩
  · intro fuel p h
    simp [parse_prefix_expression, h]
  · intro fuel p h
    simp [parse_prefix_expression, h]
  · intro child ctx
    rcases h : eval_expression child ctx with ⟨r, c⟩
    cases r <;> simp [eval_expression, h]

/-- C9 witness: instantiated on the parsers for `+5` and `-5` and the
negation node over a literal. -/
theorem unary_plus_minus_semantics_witness :
    parse_prefix_expression (Nat.succ 500) (Parser.init "+5".data) =
      parse_expression 500 3 (Parser.init "+5".data).read_token ∧
    parse_prefix_expression (Nat.succ 500) (Parser.init "-5".data) =
      (AstNode.negative (parse_expression 500 3 (Parser.init "-5".data).read_token).1,
        (parse_expression 500 3 (Parser.init "-5".data).read_token).2) :=
  ⟨unary_plus_minus_semantics.1 500 (Parser.init "+5".data) (by decide),
   unary_plus_minus_semantics.2.1 500 (Parser.init "-5".data) (by decide)⟩

/-- C10: whenever the second lookahead token is `=`, `parse_statment`
takes the assignment branch no matter what the first token is: any
statement it returns is an assignment, and when the first token is a
number the branch reads the `ident` string payload of a token whose
active union member is the number — undefined behavior (`none`) — so
`5 = 3` is never cleanly rejected nor parsed as an expression. -/
theorem assignment_branch_skips_ident_check :
    (∀ fuel p st, p.next = Token.assign → (parse_statment fuel p).1 = some st →
      ∃ name rhs, st = Statement.assignment name rhs) ∧
    (∀ fuel p n, p.next = Token.assign → p.cur = Token.num n →
      parse_statment fuel p = (none, p)) ∧
    parse_line "5 = 3" = none ∧
    run_line "5 = 3" [] = (none, []) := by
  refine ⟨?_, ?_, by decide, by decide⟩
  · intro fuel p st hnext hsome
    simp only [parse_statment, hnext] at hsome
    cases hid : p.cur.identOf with
    | some name =>
      rw [hid] at hsome
      simp only [Option.some.injEq] at hsome
      exact ⟨name, _, hsome.symm⟩
    | none =>
      rw [hid] at hsome
      simp at hsome
  · intro fuel p n hnext hcur
    simp [parse_statment, hnext, hcur, Token.identOf]

/-- C10 witness: instantiated at the parsers for `x = 5` (assignment
branch, first token an identifier) and `5 = 3` (assignment branch,
first token a number: the undefined union read). -/
theorem assignment_branch_skips_ident_check_witness :
    (∃ name rhs, Statement.assignment "x" (AstNode.literal 5) =
      Statement.assignment name rhs) ∧
    parse_statment FUEL (Parser.init "5 = 3".data) =
      (none, Parser.init "5 = 3".data) :=
  ⟨assignment_branch_skips_ident_check.1 FUEL (Parser.init "x = 5".data)
      (Statement.assignment "x" (AstNode.literal 5)) (by decide) (by decide),
   assignment_branch_skips_ident_check.2.1 FUEL (Parser.init "5 = 3".data) 5
      (by decide) (by decide)⟩

/-- C7 amended: trailing unconsumed tokens are silently ignored:
on `1 2` the parser returns the statement built from the leading
tokens while a non-EOF token (`2`) is still sitting in the lookahead
buffer, and evaluation proceeds normally. -/
theorem trailing_tokens_silently_ignored :
    parse_statment FUEL (Parser.init "1 2".data) =
      (some (Statement.expression (AstNode.literal 1)),
        ⟨⟨nulChar, []⟩, Token.num 1, Token.num 2⟩) ∧
    Token.not_eof (Token.num 2) = true ∧
    run_line "1 2" [] = (some 1, []) := by
  decide
